import Mathlib

/-!
Verification development for powermon (src/main.go), a terminal power
dashboard.  The Go source is shallowly embedded below:

* strings are `List Char` (Go strings iterated as runes);
* Go `int` is `Int` (64-bit overflow is modelled only where `strconv`
  makes it observable, namely in `atoi`);
* Go `float64` fields are modelled as exact rationals `ℚ`; every claim
  below evaluates these fields only at values where the `float64`
  computation in the source is exact, so no rounding is modelled;
* the regular expressions of main.go are embedded as explicit scanners
  that implement Go's leftmost-match semantics for those concrete
  patterns (each pattern is a literal followed by greedy character-class
  runs, for which leftmost-first matching coincides with maximal munch);
* process I/O (command output, command failure) is passed in as data.
-/

set_option maxHeartbeats 1000000

/-- The escape character beginning every ANSI sequence in main.go. -/
def escCh : Char := '\x1b'

/-- main.go line 41: `Reset = "\033[0m"`. -/
def Reset : List Char := "\x1b[0m".data

/-- main.go line 42: `Red = "\033[31m"`. -/
def Red : List Char := "\x1b[31m".data

/-- main.go line 43: `Green = "\033[32m"`. -/
def Green : List Char := "\x1b[32m".data

/-- main.go line 44: `Yellow = "\033[33m"`. -/
def Yellow : List Char := "\x1b[33m".data

/-- main.go line 45: `Blue = "\033[34m"`. -/
def Blue : List Char := "\x1b[34m".data

/-- main.go line 46: `Magenta = "\033[35m"`. -/
def Magenta : List Char := "\x1b[35m".data

/-- main.go line 47: `Cyan = "\033[36m"`. -/
def Cyan : List Char := "\x1b[36m".data

/-- main.go line 48: `White = "\033[37m"`. -/
def White : List Char := "\x1b[37m".data

/-- main.go line 49: `Dim = "\033[2m"`. -/
def Dim : List Char := "\x1b[2m".data

/-- The nine ANSI constants declared by the program (main.go lines 40-50). -/
def sgrConsts : List (List Char) := [Reset, Red, Green, Yellow, Blue, Magenta, Cyan, White, Dim]

/-- The character class `[0-9;]` of the regex `\x1b\[[0-9;]*m` (main.go line 85). -/
def isSGRBody (c : Char) : Bool := c.isDigit || c = ';'

/-- Characters that can occur in an SGR match after its initial escape
character; a match attempt in progress can only be continued by one of
these. -/
def sgrExtend (c : Char) : Bool := c = '[' || isSGRBody c || c = 'm'

/-- Characters that play no role at all in the regex `\x1b\[[0-9;]*m`:
they neither start nor continue a match. -/
def sgrSafe (c : Char) : Bool := !(c = escCh || sgrExtend c)

/-- Matches the tail `\[[0-9;]*m` of the SGR regex against `l`; on success
returns the rest of the input after the match.  The class run is taken
greedily, which is exact here because `m` is not in the class. -/
def matchSGRTail (l : List Char) : Option (List Char) :=
  match l with
  | [] => none
  | c :: r =>
    if c = '[' then
      if (r.dropWhile isSGRBody).head? = some 'm' then some (r.dropWhile isSGRBody).tail
      else none
    else none

theorem matchSGRTail_length {l r : List Char} (h : matchSGRTail l = some r) :
    r.length < l.length := by
  cases l with
  | nil => cases h
  | cons c t =>
    simp only [matchSGRTail] at h
    split at h
    · split at h
      · rename_i hm
        cases h
        have h1 : (t.dropWhile isSGRBody).length ≤ t.length :=
          List.Sublist.length_le (List.dropWhile_sublist isSGRBody)
        have h2 : t.dropWhile isSGRBody ≠ [] := by
          intro he
          rw [he] at hm
          cases hm
        have h3 : (t.dropWhile isSGRBody).tail.length + 1 = (t.dropWhile isSGRBody).length :=
          by
            cases he : t.dropWhile isSGRBody with
            | nil => exact absurd he h2
            | cons a b => simp
        simp only [List.length_cons]
        omega
      · cases h
    · cases h

/-- An SGR match attempt at the current position: the position must hold
the escape character and the following characters must complete
`\[[0-9;]*m`. -/
def matchSGRAt (c : Char) (rest : List Char) : Option (List Char) :=
  if c = escCh then matchSGRTail rest else none

theorem matchSGRAt_length {c : Char} {l r : List Char} (h : matchSGRAt c l = some r) :
    r.length < l.length + 1 := by
  unfold matchSGRAt at h
  split at h
  · exact Nat.lt_succ_of_lt (matchSGRTail_length h)
  · cases h

/-- Go `ansiRe.ReplaceAllString(s, "")` (main.go line 88): removes every
leftmost, non-overlapping match of `\x1b\[[0-9;]*m` from `s`. -/
def stripAnsi : List Char → List Char
  | [] => []
  | c :: rest =>
    match h : matchSGRAt c rest with
    | some r => stripAnsi r
    | none => c :: stripAnsi rest
termination_by l => l.length
decreasing_by
  all_goals simp_wf
  all_goals first
    | exact matchSGRAt_length h
    | exact Nat.lt_succ_self _

/-- main.go lines 87-89: `len([]rune(ansiRe.ReplaceAllString(s, "")))`. -/
def visibleLen (s : List Char) : Nat := (stripAnsi s).length

theorem stripAnsi_nil : stripAnsi [] = [] := by
  simp [stripAnsi]

theorem stripAnsi_cons_match {c : Char} {l : List Char} :
    stripAnsi (c :: l) =
      match matchSGRAt c l with
      | some r => stripAnsi r
      | none => c :: stripAnsi l := by
  rw [stripAnsi]
  split
  · rename_i r2 h2
    rw [h2]
  · rename_i h2
    rw [h2]

theorem stripAnsi_cons_of_ne (l : List Char) {c : Char} (hc : c ≠ escCh) :
    stripAnsi (c :: l) = c :: stripAnsi l := by
  rw [stripAnsi_cons_match]
  simp [matchSGRAt, hc]

theorem stripAnsi_esc_some {l r : List Char} (h : matchSGRTail l = some r) :
    stripAnsi (escCh :: l) = stripAnsi r := by
  rw [stripAnsi_cons_match]
  simp [matchSGRAt, h]

theorem stripAnsi_esc_none {l : List Char} (h : matchSGRTail l = none) :
    stripAnsi (escCh :: l) = escCh :: stripAnsi l := by
  rw [stripAnsi_cons_match]
  simp [matchSGRAt, h]

theorem matchSGRTail_append_some {l r w : List Char} (h : matchSGRTail l = some r) :
    matchSGRTail (l ++ w) = some (r ++ w) := by
  cases l with
  | nil => cases h
  | cons c t =>
    simp only [matchSGRTail] at h
    split at h
    · rename_i hc
      split at h
      · rename_i hm
        cases h
        subst hc
        obtain ⟨r2, hd⟩ : ∃ r2, t.dropWhile isSGRBody = 'm' :: r2 := by
          cases he : t.dropWhile isSGRBody with
          | nil => rw [he] at hm; cases hm
          | cons a b =>
            rw [he] at hm
            simp only [List.head?_cons, Option.some.injEq] at hm
            exact ⟨b, by rw [hm]⟩
        rw [List.cons_append]
        simp only [matchSGRTail, if_pos rfl]
        rw [List.dropWhile_append, hd]
        simp
      · cases h
    · cases h

theorem matchSGRTail_append_none {l w : List Char}
    (hw : ∀ c t, w = c :: t → sgrExtend c = false)
    (h : matchSGRTail l = none) :
    matchSGRTail (l ++ w) = none := by
  have hwd : w.dropWhile isSGRBody = w := by
    cases w with
    | nil => rfl
    | cons c t =>
      have hc := hw c t rfl
      simp only [sgrExtend, Bool.or_eq_false_iff, decide_eq_false_iff_not] at hc
      simp [List.dropWhile_cons, hc.1.2]
  have hwm : w.head? ≠ some 'm' := by
    cases w with
    | nil => simp
    | cons c t =>
      have hc := hw c t rfl
      simp only [sgrExtend, Bool.or_eq_false_iff, decide_eq_false_iff_not] at hc
      simp [hc.2]
  have hwt : matchSGRTail w = none := by
    cases w with
    | nil => rfl
    | cons c t =>
      have hc := hw c t rfl
      simp only [sgrExtend, Bool.or_eq_false_iff, decide_eq_false_iff_not] at hc
      simp [matchSGRTail, hc.1.1]
  cases l with
  | nil => simpa using hwt
  | cons c t =>
    simp only [matchSGRTail] at h
    by_cases hc : c = '['
    · subst hc
      rw [if_pos rfl] at h
      rw [List.cons_append]
      simp only [matchSGRTail, if_pos rfl]
      rw [List.dropWhile_append]
      cases hd : t.dropWhile isSGRBody with
      | nil =>
        simp only [List.isEmpty_nil, if_pos rfl, hwd]
        simp [hwm]
      | cons m r2 =>
        rw [hd] at h
        by_cases hm : m = 'm'
        · subst hm
          simp at h
        · simp [hm]
    · rw [List.cons_append]
      simp [matchSGRTail, hc]

theorem matchSGRTail_token (body : List Char) (hb : ∀ c ∈ body, isSGRBody c) (l : List Char) :
    matchSGRTail ('[' :: (body ++ 'm' :: l)) = some l := by
  have hd : (body ++ 'm' :: l).dropWhile isSGRBody = 'm' :: l := by
    rw [List.dropWhile_append]
    have h1 : body.dropWhile isSGRBody = [] := List.dropWhile_eq_nil_iff.mpr hb
    rw [h1]
    simp [List.dropWhile_cons, isSGRBody]
  simp only [matchSGRTail, if_pos rfl, hd]
  simp

theorem stripAnsi_sgr (body : List Char) (hb : ∀ c ∈ body, isSGRBody c) (l : List Char) :
    stripAnsi (escCh :: '[' :: (body ++ 'm' :: l)) = stripAnsi l :=
  stripAnsi_esc_some (matchSGRTail_token body hb l)

theorem stripAnsi_sgrConst_append {k : List Char} (hk : k ∈ sgrConsts) (l : List Char) :
    stripAnsi (k ++ l) = stripAnsi l := by
  simp only [sgrConsts, List.mem_cons, List.not_mem_nil, or_false] at hk
  rcases hk with rfl | rfl | rfl | rfl | rfl | rfl | rfl | rfl | rfl
  · exact stripAnsi_sgr ['0'] (by decide) l
  · exact stripAnsi_sgr ['3', '1'] (by decide) l
  · exact stripAnsi_sgr ['3', '2'] (by decide) l
  · exact stripAnsi_sgr ['3', '3'] (by decide) l
  · exact stripAnsi_sgr ['3', '4'] (by decide) l
  · exact stripAnsi_sgr ['3', '5'] (by decide) l
  · exact stripAnsi_sgr ['3', '6'] (by decide) l
  · exact stripAnsi_sgr ['3', '7'] (by decide) l
  · exact stripAnsi_sgr ['2'] (by decide) l

theorem stripAnsi_of_no_esc {w : List Char} (hw : ∀ c ∈ w, c ≠ escCh) : stripAnsi w = w := by
  induction w with
  | nil => exact stripAnsi_nil
  | cons c t ih =>
    rw [stripAnsi_cons_of_ne _ (hw c (List.mem_cons_self c t))]
    rw [ih (fun d hd => hw d (List.mem_cons_of_mem c hd))]

theorem matchSGRAt_append_some {c : Char} {rest r k : List Char}
    (hm : matchSGRAt c rest = some r) :
    matchSGRAt c (rest ++ k) = some (r ++ k) := by
  unfold matchSGRAt at hm ⊢
  split at hm
  · rename_i hc
    rw [if_pos hc]
    exact matchSGRTail_append_some hm
  · cases hm

theorem stripAnsi_append_sgrConst {k : List Char} (hk : k ∈ sgrConsts) :
    ∀ x : List Char, stripAnsi (x ++ k) = stripAnsi x := by
  have hhead : ∀ c t, k = c :: t → sgrExtend c = false := by
    simp only [sgrConsts, List.mem_cons, List.not_mem_nil, or_false] at hk
    rcases hk with rfl | rfl | rfl | rfl | rfl | rfl | rfl | rfl | rfl <;>
      (intro c t hct; injection hct with h1 h2; subst h1; decide)
  have hvanish : stripAnsi k = [] := by
    have h0 := stripAnsi_sgrConst_append hk []
    rw [List.append_nil, stripAnsi_nil] at h0
    exact h0
  intro x
  induction x using stripAnsi.induct with
  | case1 => simpa [stripAnsi_nil] using hvanish
  | case2 c rest r hm ih =>
    have hm2 : matchSGRAt c (rest ++ k) = some (r ++ k) := matchSGRAt_append_some hm
    rw [List.cons_append, stripAnsi_cons_match, hm2, stripAnsi_cons_match, hm]
    exact ih
  | case3 c rest hm ih =>
    by_cases hc : c = escCh
    · subst hc
      have hmt : matchSGRTail rest = none := by simpa [matchSGRAt] using hm
      have hm2 : matchSGRTail (rest ++ k) = none := matchSGRTail_append_none hhead hmt
      rw [List.cons_append, stripAnsi_esc_none hm2, stripAnsi_esc_none hmt, ih]
    · rw [List.cons_append, stripAnsi_cons_of_ne _ hc, stripAnsi_cons_of_ne _ hc, ih]

theorem stripAnsi_append_safe {w : List Char} (hw : ∀ c ∈ w, sgrSafe c) :
    ∀ x : List Char, stripAnsi (x ++ w) = stripAnsi x ++ w := by
  have hne : ∀ c ∈ w, c ≠ escCh := by
    intro c hc
    have := hw c hc
    simp only [sgrSafe, Bool.not_eq_true', Bool.or_eq_false_iff, decide_eq_false_iff_not] at this
    exact this.1
  have hhead : ∀ c t, w = c :: t → sgrExtend c = false := by
    intro c t hct
    subst hct
    have := hw c (List.mem_cons_self c t)
    simp only [sgrSafe, Bool.not_eq_true', Bool.or_eq_false_iff] at this
    exact this.2
  have hnil : stripAnsi w = w := stripAnsi_of_no_esc hne
  intro x
  induction x using stripAnsi.induct with
  | case1 => simpa [stripAnsi_nil] using hnil
  | case2 c rest r hm ih =>
    have hm2 : matchSGRAt c (rest ++ w) = some (r ++ w) := matchSGRAt_append_some hm
    rw [List.cons_append, stripAnsi_cons_match, hm2, stripAnsi_cons_match, hm]
    exact ih
  | case3 c rest hm ih =>
    by_cases hc : c = escCh
    · subst hc
      have hmt : matchSGRTail rest = none := by simpa [matchSGRAt] using hm
      have hm2 : matchSGRTail (rest ++ w) = none := matchSGRTail_append_none hhead hmt
      rw [List.cons_append, stripAnsi_esc_none hm2, stripAnsi_esc_none hmt, ih,
        List.cons_append]
    · rw [List.cons_append, stripAnsi_cons_of_ne _ hc, stripAnsi_cons_of_ne _ hc, ih,
        List.cons_append]

theorem stripAnsi_replicate_append {c : Char} (hc : c ≠ escCh) (n : Nat) (x : List Char) :
    stripAnsi (List.replicate n c ++ x) = List.replicate n c ++ stripAnsi x := by
  induction n with
  | zero => simp
  | succ n ih =>
    rw [List.replicate_succ, List.cons_append, stripAnsi_cons_of_ne _ hc, ih,
      List.cons_append]

/-- Whether `s` contains a match of the SGR regex `\x1b\[[0-9;]*m` at any
position. -/
def containsSGR : List Char → Bool
  | [] => false
  | c :: r => (matchSGRAt c r).isSome || containsSGR r

theorem stripAnsi_of_not_containsSGR {s : List Char} (h : containsSGR s = false) :
    stripAnsi s = s := by
  induction s with
  | nil => exact stripAnsi_nil
  | cons c r ih =>
    simp only [containsSGR, Bool.or_eq_false_iff] at h
    have h1 : matchSGRAt c r = none := by
      cases hma : matchSGRAt c r
      · rfl
      · rw [hma] at h
        simp at h
    rw [stripAnsi_cons_match, h1, ih h.2]

theorem stripAnsi_sgrConst {k : List Char} (hk : k ∈ sgrConsts) : stripAnsi k = [] := by
  have h0 := stripAnsi_sgrConst_append hk []
  rw [List.append_nil, stripAnsi_nil] at h0
  exact h0

theorem visibleLen_sgrConst_append {k : List Char} (hk : k ∈ sgrConsts) (l : List Char) :
    visibleLen (k ++ l) = visibleLen l := by
  rw [visibleLen, stripAnsi_sgrConst_append hk, visibleLen]

theorem visibleLen_append_sgrConst {k : List Char} (hk : k ∈ sgrConsts) (x : List Char) :
    visibleLen (x ++ k) = visibleLen x := by
  rw [visibleLen, stripAnsi_append_sgrConst hk, visibleLen]

theorem visibleLen_append_safe {w : List Char} (hw : ∀ c ∈ w, sgrSafe c) (x : List Char) :
    visibleLen (x ++ w) = visibleLen x + w.length := by
  rw [visibleLen, stripAnsi_append_safe hw, List.length_append, visibleLen]

theorem visibleLen_of_not_containsSGR {s : List Char} (h : containsSGR s = false) :
    visibleLen s = s.length := by
  rw [visibleLen, stripAnsi_of_not_containsSGR h]

/-- Go integer division truncates toward zero. -/
def goDiv (a b : Int) : Int := a.tdiv b

/-- Go `strings.Repeat` on a single rune.  Go panics on a negative count;
no code path in main.go and no claim reaches a negative count, and the
model maps such a count to the empty string. -/
def goRepeat (c : Char) (n : Int) : List Char := List.replicate n.toNat c

/-- The filled block rune `█` used by both bars. -/
def blockFull : Char := '█'

/-- The empty block rune `░` used by colorBar. -/
def blockLight : Char := '░'

/-- The `filled` and `empty` locals of `colorBar` (main.go lines 52-63):
`pct` clamped to `[0,100]`, `filled = pct*width/100`,
`empty = width - filled` clamped to be non-negative. -/
def colorBarCounts (pct width : Int) : Int × Int :=
  let pct1 := if pct < 0 then 0 else pct
  let pct2 := if pct1 > 100 then 100 else pct1
  let filled := goDiv (pct2 * width) 100
  let empty := width - filled
  let empty2 := if empty < 0 then 0 else empty
  (filled, empty2)

/-- main.go line 64: the rendered bar string. -/
def colorBar (pct width : Int) (color : List Char) : List Char :=
  color ++ goRepeat blockFull (colorBarCounts pct width).1 ++ Reset ++ Dim
    ++ goRepeat blockLight (colorBarCounts pct width).2 ++ Reset

/-- The `sysBars` and `batBars` locals of `splitBar` (main.go lines 67-81):
inputs clamped to be non-negative, `sysBars = sysPct*width/100`,
`batBars = width - sysBars`, both clamped to be non-negative.  `batPct`
is clamped but otherwise unused, exactly as in the source. -/
def splitBarCounts (sysPct batPct width : Int) : Int × Int :=
  let sysPct1 := if sysPct < 0 then 0 else sysPct
  let _batPct1 := if batPct < 0 then 0 else batPct
  let sysBars := goDiv (sysPct1 * width) 100
  let batBars := width - sysBars
  let sysBars2 := if sysBars < 0 then 0 else sysBars
  let batBars2 := if batBars < 0 then 0 else batBars
  (sysBars2, batBars2)

/-- main.go line 82: the rendered split bar string. -/
def splitBar (sysPct batPct width : Int) : List Char :=
  Cyan ++ goRepeat blockFull (splitBarCounts sysPct batPct width).1 ++ Reset
    ++ Yellow ++ goRepeat blockFull (splitBarCounts sysPct batPct width).2 ++ Reset

/-- main.go lines 91-99: one boxed row; interior width 52, padding
clamped at zero. -/
def line (content : List Char) : List Char :=
  let pad : Int := 52 - (visibleLen content : Int)
  let pad2 := if pad < 0 then 0 else pad
  "║ ".data ++ content ++ goRepeat ' ' pad2 ++ " ║".data

theorem visibleLen_colorBar (pct width : Int) {color : List Char} (hc : color ∈ sgrConsts) :
    visibleLen (colorBar pct width color) =
      (colorBarCounts pct width).1.toNat + (colorBarCounts pct width).2.toNat := by
  have hb : blockFull ≠ escCh := by decide
  have hl : blockLight ≠ escCh := by decide
  have hR : Reset ∈ sgrConsts := by decide
  have hD : Dim ∈ sgrConsts := by decide
  unfold colorBar goRepeat
  rw [visibleLen]
  simp only [List.append_assoc]
  rw [stripAnsi_sgrConst_append hc, stripAnsi_replicate_append hb,
    stripAnsi_sgrConst_append hR, stripAnsi_sgrConst_append hD,
    stripAnsi_replicate_append hl, stripAnsi_sgrConst hR]
  simp

theorem visibleLen_splitBar (sysPct batPct width : Int) :
    visibleLen (splitBar sysPct batPct width) =
      (splitBarCounts sysPct batPct width).1.toNat
        + (splitBarCounts sysPct batPct width).2.toNat := by
  have hb : blockFull ≠ escCh := by decide
  have hC : Cyan ∈ sgrConsts := by decide
  have hR : Reset ∈ sgrConsts := by decide
  have hY : Yellow ∈ sgrConsts := by decide
  unfold splitBar goRepeat
  rw [visibleLen]
  simp only [List.append_assoc]
  rw [stripAnsi_sgrConst_append hC, stripAnsi_replicate_append hb,
    stripAnsi_sgrConst_append hR, stripAnsi_sgrConst_append hY,
    stripAnsi_replicate_append hb, stripAnsi_sgrConst hR]
  simp

theorem visibleLen_line (content : List Char) :
    visibleLen (line content) = 4 + max (visibleLen content) 52 := by
  have hsp : sgrSafe ' ' = true := by decide
  have hd2 : ("║ ".data : List Char) = ['║', ' '] := rfl
  simp only [line, goRepeat, hd2, List.append_assoc, List.cons_append, List.nil_append]
  rw [visibleLen]
  rw [stripAnsi_cons_of_ne _ (by decide : '║' ≠ escCh)]
  rw [stripAnsi_cons_of_ne _ (by decide : ' ' ≠ escCh)]
  rw [stripAnsi_append_safe]
  · simp only [List.length_cons, List.length_append, List.length_replicate,
      List.length_nil]
    have hv : (stripAnsi content).length = visibleLen content := rfl
    rw [hv]
    split <;> omega
  · intro c hcm
    rcases List.mem_append.mp hcm with hrep | htail
    · rw [List.eq_of_mem_replicate hrep]
      exact hsp
    · have hc2 : c = ' ' ∨ c = '║' := by
        cases htail with
        | head => left; rfl
        | tail _ h2 =>
          cases h2 with
          | head => right; rfl
          | tail _ h3 => cases h3
      rcases hc2 with rfl | rfl <;> decide

/-- main.go lines 16-35: the shared snapshot record.  The `float64` fields
are modelled as exact rationals (see the file header); the `sync.RWMutex`
that serialises access in the source is not data and is not modelled —
every embedded operation acts on a consistent snapshot, which is what the
lock guarantees the source. -/
structure PowerData where
  CPUPower : ℚ
  GPUPower : ℚ
  ANEPower : ℚ
  PackagePower : ℚ
  BatteryPct : Int
  ChargerWatts : Int
  ChargerVoltage : Int
  ChargerCurrent : Int
  BatteryVoltage : Int
  BatteryAmps : Int
  Temperature : Int
  IsCharging : Bool
  OnAC : Bool
deriving DecidableEq

/-- The Go zero value of the global `data` (main.go line 37). -/
def powerDataInit : PowerData :=
  ⟨0, 0, 0, 0, 0, 0, 0, 0, 0, 0, 0, false, false⟩

/-- Numeric value of a digit string, most significant digit first. -/
def digitsVal (l : List Char) : Nat :=
  l.foldl (fun a c => a * 10 + (c.toNat - '0'.toNat)) 0

def int64Max : Int := 9223372036854775807

def int64Min : Int := -9223372036854775808

/-- The syntax part of `strconv.Atoi`: optional sign then at least one
ASCII digit; the exact mathematical value is returned. -/
def atoiNum (l : List Char) : Option Int :=
  match l with
  | [] => none
  | '+' :: ds =>
    if ds.isEmpty then none
    else if ds.all Char.isDigit then some (digitsVal ds) else none
  | '-' :: ds =>
    if ds.isEmpty then none
    else if ds.all Char.isDigit then some (-(digitsVal ds : Int)) else none
  | ds => if ds.all Char.isDigit then some (digitsVal ds) else none

/-- Go `strconv.Atoi` as used by extractInt (main.go line 117), where only
`err == nil` results count: a value outside the 64-bit range is a range
error. -/
def atoi (l : List Char) : Option Int :=
  match atoiNum l with
  | some v => if int64Min ≤ v ∧ v ≤ int64Max then some v else none
  | none => none

/-- Go `v, _ := strconv.Atoi(m[1])` with the error ignored (main.go line
222): a syntax error yields 0, an out-of-range value is clamped to the
extreme 64-bit value of its sign, exactly as strconv documents. -/
def atoiGo (l : List Char) : Int :=
  match atoiNum l with
  | some v => if v < int64Min then int64Min else if v > int64Max then int64Max else v
  | none => 0

/-- Go `strconv.ParseFloat` restricted to the strings that the regex class
`[\d.]+` can capture (digits and dots): valid iff there is at most one
dot and at least one digit; the decimal value is read exactly.  (The
binary rounding of `float64`, and its overflow to infinity on enormous
digit runs, are not modelled; every claim below evaluates only captures
whose `float64` value is exact.) -/
def parseFloatCap (l : List Char) : Option ℚ :=
  let ip := l.takeWhile Char.isDigit
  match l.dropWhile Char.isDigit with
  | [] => if ip.isEmpty then none else some (digitsVal ip : ℚ)
  | '.' :: frac =>
    if frac.all Char.isDigit ∧ (ip.isEmpty = false ∨ frac.isEmpty = false) then
      some ((digitsVal ip : ℚ) + (digitsVal frac : ℚ) / (10 : ℚ) ^ frac.length)
    else none
  | _ => none

/-- Go `v, _ := strconv.ParseFloat(m[1], 64)` with the error ignored
(main.go lines 210-219): an unparsable capture stores 0. -/
def goParseFloat (l : List Char) : ℚ := (parseFloatCap l).getD 0

/-- Consumes the literal `lit` at the head of `l`. -/
def dropLit : List Char → List Char → Option (List Char)
  | [], l => some l
  | _ :: _, [] => none
  | c :: cs, x :: xs => if c = x then dropLit cs xs else none

/-- Go `regexp.FindStringSubmatch`: the pattern is tried at every start
position from the left, and the first position where it matches yields
its capture group. -/
def findFirst (m : List Char → Option (List Char)) : List Char → Option (List Char)
  | [] => none
  | c :: r =>
    match m (c :: r) with
    | some cap => some cap
    | none => findFirst m r

/-- A match attempt for a pattern `<literal><tail>` at one position. -/
def matchLit (lit : List Char) (capRest : List Char → Option (List Char))
    (l : List Char) : Option (List Char) :=
  match dropLit lit l with
  | some r => capRest r
  | none => none

/-- Go regexp `\s` (the RE2 Perl class): tab, newline, form feed,
carriage return, space. -/
def isGoSpace (c : Char) : Bool :=
  c = ' ' || c = '\t' || c = '\n' || c = '\x0c' || c = '\x0d'

/-- The regex class `[\d.]`. -/
def isNumDot (c : Char) : Bool := c.isDigit || c = '.'

/-- Capture tail `(\d+)`: the greedy digit run, which must be
non-empty. -/
def capDigits (l : List Char) : Option (List Char) :=
  let ds := l.takeWhile Char.isDigit
  if ds.isEmpty then none else some ds

/-- Capture tail `(-?\d+)`: leftmost-first matching consumes the minus
sign when present, and then still requires at least one digit. -/
def capSigned (l : List Char) : Option (List Char) :=
  match l with
  | '-' :: r =>
    match capDigits r with
    | some ds => some ('-' :: ds)
    | none => none
  | _ => capDigits l

/-- Match tail `\s+([\d.]+)\s+mW` of the powermetrics power patterns
(main.go lines 199-202).  All runs are greedy; greediness is exact
because the classes `\s` and `[\d.]` are disjoint and neither contains
`m`. -/
def capPowerMW (l : List Char) : Option (List Char) :=
  let ws := l.takeWhile isGoSpace
  if ws.isEmpty then none
  else
    let l1 := l.dropWhile isGoSpace
    let num := l1.takeWhile isNumDot
    if num.isEmpty then none
    else
      let l2 := l1.dropWhile isNumDot
      let ws2 := l2.takeWhile isGoSpace
      if ws2.isEmpty then none
      else
        match l2.dropWhile isGoSpace with
        | 'm' :: 'W' :: _ => some num
        | _ => none

/-- Match tail `\s+(\d+)` of `percent_charge:\s+(\d+)` (main.go line
203). -/
def capWsDigits (l : List Char) : Option (List Char) :=
  if (l.takeWhile isGoSpace).isEmpty then none
  else capDigits (l.dropWhile isGoSpace)

/-- Capture tail `(Yes|No)`: leftmost-first alternation. -/
def capYesNo (l : List Char) : Option (List Char) :=
  match l with
  | 'Y' :: 'e' :: 's' :: _ => some "Yes".data
  | 'N' :: 'o' :: _ => some "No".data
  | _ => none

/-- main.go line 104: `"Watts"=(\d+)`. -/
def findWatts : List Char → Option (List Char) :=
  findFirst (matchLit "\"Watts\"=".data capDigits)

/-- main.go line 105: `"AdapterVoltage"=(\d+)`. -/
def findAdapterV : List Char → Option (List Char) :=
  findFirst (matchLit "\"AdapterVoltage\"=".data capDigits)

/-- main.go line 106: `"Current"=(\d+)`. -/
def findAdapterA : List Char → Option (List Char) :=
  findFirst (matchLit "\"Current\"=".data capDigits)

/-- main.go line 107: `"AppleRawBatteryVoltage" = (\d+)`. -/
def findBatteryV : List Char → Option (List Char) :=
  findFirst (matchLit "\"AppleRawBatteryVoltage\" = ".data capDigits)

/-- main.go line 108: `"Amperage" = (-?\d+)`. -/
def findBatteryA : List Char → Option (List Char) :=
  findFirst (matchLit "\"Amperage\" = ".data capSigned)

/-- main.go line 109: `"Temperature" = (\d+)`. -/
def findTemp : List Char → Option (List Char) :=
  findFirst (matchLit "\"Temperature\" = ".data capDigits)

/-- main.go line 110: `"IsCharging" = (Yes|No)`. -/
def findCharging : List Char → Option (List Char) :=
  findFirst (matchLit "\"IsCharging\" = ".data capYesNo)

/-- main.go line 111: `"ExternalConnected" = (Yes|No)`. -/
def findExternal : List Char → Option (List Char) :=
  findFirst (matchLit "\"ExternalConnected\" = ".data capYesNo)

/-- main.go line 199: `CPU Power:\s+([\d.]+)\s+mW`. -/
def findCPUPower : List Char → Option (List Char) :=
  findFirst (matchLit "CPU Power:".data capPowerMW)

/-- main.go line 200: `GPU Power:\s+([\d.]+)\s+mW`. -/
def findGPUPower : List Char → Option (List Char) :=
  findFirst (matchLit "GPU Power:".data capPowerMW)

/-- main.go line 201: `ANE Power:\s+([\d.]+)\s+mW`. -/
def findANEPower : List Char → Option (List Char) :=
  findFirst (matchLit "ANE Power:".data capPowerMW)

/-- main.go line 202: `Combined Power \(CPU \+ GPU \+ ANE\):\s+([\d.]+)\s+mW`. -/
def findPackagePower : List Char → Option (List Char) :=
  findFirst (matchLit "Combined Power (CPU + GPU + ANE):".data capPowerMW)

/-- main.go line 203: `percent_charge:\s+(\d+)`. -/
def findBatteryPct : List Char → Option (List Char) :=
  findFirst (matchLit "percent_charge:".data capWsDigits)

/-- main.go lines 115-123: the bounded extractor.  Returns `(v, true)`
iff the pattern matched, the capture parsed without error, and
`min <= v <= max`; otherwise `(0, false)`. -/
def extractInt (find : List Char → Option (List Char)) (s : List Char)
    (lo hi : Int) : Int × Bool :=
  match find s with
  | some cap =>
    match atoi cap with
    | some v => if lo ≤ v ∧ v ≤ hi then (v, true) else (0, false)
    | none => (0, false)
  | none => (0, false)

/-- Source form `if v, ok := extractInt(...); ok { <store> }`: conditional
single-field store. -/
def updIf (g : Int × Bool) (store : Int → PowerData → PowerData)
    (d : PowerData) : PowerData :=
  match g with
  | (v, true) => store v d
  | _ => d

/-- Source form `if m := re.FindStringSubmatch(s); len(m) > 1 { <store> }`:
unconditional store of the capture when the pattern matched. -/
def updCap (g : Option (List Char)) (store : List Char → PowerData → PowerData)
    (d : PowerData) : PowerData :=
  match g with
  | some cap => store cap d
  | none => d

/-- Store `data.ChargerWatts = v` (main.go line 131). -/
def storeWatts (v : Int) (d : PowerData) : PowerData := { d with ChargerWatts := v }

/-- Store `data.ChargerVoltage = v` (main.go line 134). -/
def storeAdapterV (v : Int) (d : PowerData) : PowerData := { d with ChargerVoltage := v }

/-- Store `data.ChargerCurrent = v` (main.go line 137). -/
def storeAdapterA (v : Int) (d : PowerData) : PowerData := { d with ChargerCurrent := v }

/-- Store `data.BatteryVoltage = v` (main.go line 140). -/
def storeBatteryV (v : Int) (d : PowerData) : PowerData := { d with BatteryVoltage := v }

/-- Store `data.BatteryAmps = v` (main.go line 143). -/
def storeBatteryA (v : Int) (d : PowerData) : PowerData := { d with BatteryAmps := v }

/-- Store `data.Temperature = v` (main.go line 146). -/
def storeTemp (v : Int) (d : PowerData) : PowerData := { d with Temperature := v }

/-- Store `data.IsCharging = m[1] == "Yes"` (main.go line 149). -/
def storeCharging (cap : List Char) (d : PowerData) : PowerData :=
  { d with IsCharging := cap == "Yes".data }

/-- Store `data.OnAC = m[1] == "Yes"` (main.go line 152). -/
def storeExternal (cap : List Char) (d : PowerData) : PowerData :=
  { d with OnAC := cap == "Yes".data }

/-- The body of the ioreg poll under `err == nil` (main.go lines
128-154): each field updated independently, in source order. -/
def applyIoreg (d : PowerData) (s : List Char) : PowerData :=
  let d1 := updIf (extractInt findWatts s 0 500) storeWatts d
  let d2 := updIf (extractInt findAdapterV s 0 50000) storeAdapterV d1
  let d3 := updIf (extractInt findAdapterA s 0 10000) storeAdapterA d2
  let d4 := updIf (extractInt findBatteryV s 5000 25000) storeBatteryV d3
  let d5 := updIf (extractInt findBatteryA s (-15000) 15000) storeBatteryA d4
  let d6 := updIf (extractInt findTemp s 0 10000) storeTemp d5
  let d7 := updCap (findCharging s) storeCharging d6
  updCap (findExternal s) storeExternal d7

/-- One iteration of pollIoreg's loop (main.go lines 125-157): `cmdOut`
is `none` exactly when `exec.Command("ioreg", ...).Output()` returned an
error, in which case the iteration performs no update at all. -/
def pollIoregCycle (d : PowerData) (cmdOut : Option (List Char)) : PowerData :=
  match cmdOut with
  | some out => applyIoreg d out
  | none => d

/-- The poll loop run over a finite trace of command results. -/
def pollIoregLoop (d : PowerData) (outs : List (Option (List Char))) : PowerData :=
  outs.foldl pollIoregCycle d

/-- Store `data.CPUPower, _ = strconv.ParseFloat(m[1], 64)` (main.go line 210). -/
def storeCPU (cap : List Char) (d : PowerData) : PowerData :=
  { d with CPUPower := goParseFloat cap }

/-- Store `data.GPUPower, _ = strconv.ParseFloat(m[1], 64)` (main.go line 213). -/
def storeGPU (cap : List Char) (d : PowerData) : PowerData :=
  { d with GPUPower := goParseFloat cap }

/-- Store `data.ANEPower, _ = strconv.ParseFloat(m[1], 64)` (main.go line 216). -/
def storeANE (cap : List Char) (d : PowerData) : PowerData :=
  { d with ANEPower := goParseFloat cap }

/-- Store `data.PackagePower, _ = strconv.ParseFloat(m[1], 64)` (main.go line 219). -/
def storePackage (cap : List Char) (d : PowerData) : PowerData :=
  { d with PackagePower := goParseFloat cap }

/-- Store `data.BatteryPct, _ = strconv.Atoi(m[1])` (main.go line 222). -/
def storeBatteryPct (cap : List Char) (d : PowerData) : PowerData :=
  { d with BatteryPct := atoiGo cap }

/-- main.go lines 205-224: per-line extraction from the powermetrics
stream.  Note there is no range check here, and each
`ParseFloat`/`Atoi` result is stored with its error ignored. -/
def processLine (d : PowerData) (text : List Char) : PowerData :=
  let d1 := updCap (findCPUPower text) storeCPU d
  let d2 := updCap (findGPUPower text) storeGPU d1
  let d3 := updCap (findANEPower text) storeANE d2
  let d4 := updCap (findPackagePower text) storePackage d3
  updCap (findBatteryPct text) storeBatteryPct d4

/-- main.go line 226: `strings.HasPrefix(text, "***")`. -/
def hasStarMarker (text : List Char) : Bool := (dropLit "***".data text).isSome

theorem extractInt_eq_some_true_iff (find : List Char → Option (List Char))
    (s : List Char) (lo hi v : Int) :
    extractInt find s lo hi = (v, true) ↔
      ∃ cap, find s = some cap ∧ atoi cap = some v ∧ lo ≤ v ∧ v ≤ hi := by
  unfold extractInt
  constructor
  · intro h
    split at h
    · rename_i cap hcap
      split at h
      · rename_i w hw
        split at h
        · rename_i hrange
          cases h
          exact ⟨cap, hcap, hw, hrange.1, hrange.2⟩
        · simp at h
      · simp at h
    · simp at h
  · rintro ⟨cap, hcap, hv, h1, h2⟩
    simp only [hcap, hv]
    simp [h1, h2]

theorem extractInt_true_range {find : List Char → Option (List Char)}
    {s : List Char} {lo hi v : Int}
    (h : extractInt find s lo hi = (v, true)) : lo ≤ v ∧ v ≤ hi := by
  rcases (extractInt_eq_some_true_iff find s lo hi v).mp h with ⟨cap, _, _, h1, h2⟩
  exact ⟨h1, h2⟩

theorem extractInt_cases (find : List Char → Option (List Char))
    (s : List Char) (lo hi : Int) :
    (∃ v, extractInt find s lo hi = (v, true)) ∨
      extractInt find s lo hi = (0, false) := by
  unfold extractInt
  split
  · split
    · split
      · left
        exact ⟨_, rfl⟩
      · right
        rfl
    · right
      rfl
  · right
    rfl

theorem updIf_proj {α : Type} (proj : PowerData → α) (g : Int × Bool)
    (store : Int → PowerData → PowerData) (d : PowerData)
    (hp : ∀ v d2, proj (store v d2) = proj d2) :
    proj (updIf g store d) = proj d := by
  unfold updIf
  split
  · exact hp _ _
  · rfl

theorem updCap_proj {α : Type} (proj : PowerData → α) (g : Option (List Char))
    (store : List Char → PowerData → PowerData) (d : PowerData)
    (hp : ∀ cap d2, proj (store cap d2) = proj d2) :
    proj (updCap g store d) = proj d := by
  unfold updCap
  split
  · exact hp _ _
  · rfl

/-- The conditional store either leaves the projected field alone or
stores a value for which the extractor returned `true`. -/
theorem updIf_proj_cases (proj : PowerData → Int) (g : Int × Bool)
    (store : Int → PowerData → PowerData) (d : PowerData)
    (hs : ∀ v d2, proj (store v d2) = v) :
    proj (updIf g store d) = proj d ∨ g = (proj (updIf g store d), true) := by
  obtain ⟨v, b⟩ := g
  cases b
  · left
    rfl
  · right
    unfold updIf
    rw [hs]

/-- Go `%d`. -/
def fmtInt (n : Int) : List Char := (toString n).data

/-- Round to the nearest integer, ties to even — the rounding `%f`
applies to the value being printed.  (On the exact rationals of this
model; see the file header.) -/
def rne (q : ℚ) : Int :=
  let f : Int := ⌊q⌋
  let r : ℚ := q - (f : ℚ)
  if r < 1 / 2 then f
  else if 1 / 2 < r then f + 1
  else if f % 2 = 0 then f else f + 1

/-- Go `%.<prec>f`: fixed-point decimal image of `q`. -/
def fmtFixed (prec : Nat) (q : ℚ) : List Char :=
  let scaled := rne (q * (10 : ℚ) ^ prec)
  let digs := (toString scaled.natAbs).data
  let digs2 := List.replicate (prec + 1 - digs.length) '0' ++ digs
  let ip := digs2.take (digs2.length - prec)
  let fp := digs2.drop (digs2.length - prec)
  (if q < 0 then ['-'] else []) ++ ip ++ (if prec = 0 then [] else '.' :: fp)

/-- Go `%<width>.<prec>f`: right-justified in `width` cells. -/
def fmtFixedW (width prec : Nat) (q : ℚ) : List Char :=
  List.replicate (width - (fmtFixed prec q).length) ' ' ++ fmtFixed prec q

/-- Go's float64→int conversion truncates toward zero. -/
def goIntOfFloat (q : ℚ) : Int := q.num.tdiv (q.den : Int)

/-- The top border row (main.go line 250): corner, 54 double-rule runes,
corner. -/
def borderTop : List Char := '╔' :: (List.replicate 54 '═' ++ ['╗'])

/-- The separator row (main.go lines 252, 259, 265, 290, 304). -/
def borderSep : List Char := '╠' :: (List.replicate 54 '═' ++ ['╣'])

/-- The bottom border row (main.go line 306). -/
def borderBot : List Char := '╚' :: (List.replicate 54 '═' ++ ['╝'])

/-- The charging-status label (main.go lines 293-298). -/
def statusLabel (d : PowerData) : List Char :=
  if d.IsCharging then Green ++ "charging".data ++ Reset
  else if d.OnAC then Blue ++ "full/maintaining".data ++ Reset
  else Red ++ "draining".data ++ Reset

/-- The rows printed by one render call (main.go lines 236-307), in
order.  `now` stands for `time.Now().Format("15:04:05")`; the cursor-home
control printed just before the rows (line 236) is terminal control, not
a row.  All derived quantities follow lines 238-248. -/
def renderLines (now : List Char) (d : PowerData) : List (List Char) :=
  let cpuW := d.CPUPower / 1000
  let gpuW := d.GPUPower / 1000
  let aneW := d.ANEPower / 1000
  let siliconW := d.PackagePower / 1000
  let chargerV := (d.ChargerVoltage : ℚ) / 1000
  let chargerA := (d.ChargerCurrent : ℚ) / 1000
  let batteryV := (d.BatteryVoltage : ℚ) / 1000
  let batteryA := (d.BatteryAmps : ℚ) / 1000
  let batteryW := batteryV * batteryA
  let tempC := (d.Temperature : ℚ) / 100
  [borderTop,
   line "       LIVE POWER MONITOR  (Ctrl+C to stop)".data,
   borderSep,
   line (Magenta ++ "SILICON".data ++ Reset ++ " (live)".data),
   line ("  CPU:  ".data ++ fmtFixedW 5 2 cpuW ++ " W  [".data
     ++ colorBar (goIntOfFloat (cpuW * 10)) 20 Magenta ++ "]".data),
   line ("  GPU:  ".data ++ fmtFixedW 5 2 gpuW ++ " W  [".data
     ++ colorBar (goIntOfFloat (gpuW * 10)) 20 Magenta ++ "]".data),
   line ("  ANE:  ".data ++ fmtFixedW 5 2 aneW ++ " W  [".data
     ++ colorBar (goIntOfFloat (aneW * 10)) 20 Magenta ++ "]".data),
   line ("  Chip: ".data ++ fmtFixedW 5 2 siliconW ++ " W".data),
   borderSep]
  ++ (if d.OnAC then
      let systemW := (d.ChargerWatts : ℚ) - batteryW
      [line (Green ++ "CHARGER".data ++ Reset),
       line ("  ".data ++ fmtFixed 1 chargerV ++ "V × ".data ++ fmtFixed 2 chargerA
         ++ "A = ".data ++ Green ++ fmtInt d.ChargerWatts ++ "W".data ++ Reset),
       borderSep,
       line "POWER SPLIT (~30s refresh)".data,
       line ("  → ".data ++ Cyan ++ "System:  ".data ++ fmtFixedW 5 1 systemW
         ++ " W".data ++ Reset),
       line ("  → ".data ++ Yellow ++ "Battery: ".data ++ fmtFixedW 5 1 batteryW
         ++ " W".data ++ Reset)]
      ++ (if d.ChargerWatts > 0 then
          let batteryPct0 := goIntOfFloat (batteryW / (d.ChargerWatts : ℚ) * 100)
          let batteryPct1 := if batteryPct0 < 0 then 0 else batteryPct0
          let batteryPct := if batteryPct1 > 100 then 100 else batteryPct1
          let systemPct := 100 - batteryPct
          [line ("  [".data ++ splitBar systemPct batteryPct 40 ++ "]".data),
           line ("   ".data ++ Cyan ++ "system ".data ++ fmtInt systemPct ++ "%".data
             ++ Reset ++ "          ".data ++ Yellow ++ "battery ".data
             ++ fmtInt batteryPct ++ "%".data ++ Reset)]
        else [])
    else
      let drainW := -batteryW
      [line (Red ++ "ON BATTERY".data ++ Reset),
       line ("  Drain: ".data ++ Red ++ fmtFixed 1 drainW ++ " W".data ++ Reset)])
  ++ [borderSep,
      line (Yellow ++ "BATTERY".data ++ Reset),
      line ("  ".data ++ fmtInt d.BatteryPct ++ "% │ ".data ++ fmtFixed 2 batteryV
        ++ "V │ ".data ++ fmtInt d.BatteryAmps ++ "mA │ ".data ++ fmtFixed 1 tempC
        ++ "°C".data),
      line ("  ".data ++ statusLabel d),
      line ("  [".data ++ colorBar d.BatteryPct 44 Yellow ++ "]".data),
      borderSep,
      line now,
      borderBot,
      []]

/-- main.go lines 232-308: `render` takes the read lock, derives its
quantities, and prints; it contains no assignment to any field of the
snapshot, which the explicit state-passing makes visible: the state it
hands back is the state it received. -/
def render (now : List Char) (d : PowerData) : PowerData × List (List Char) :=
  (d, renderLines now d)

/-- The scanner loop of main (main.go lines 205-229) over a finite trace
of stream lines: every line is processed into the snapshot, and each line
with the `***` marker triggers one render.  Returns the final snapshot
and the number of renders. -/
def scanLoop (d : PowerData) (trace : List (List Char)) : PowerData × Nat :=
  trace.foldl
    (fun acc t =>
      let d2 := processLine acc.1 t
      (d2, if hasStarMarker t then acc.2 + 1 else acc.2))
    (d, 0)

/-- Outcome of `main` (main.go lines 160-230): either a fatal startup
error (message printed, function returns before the scanner loop), or
the completed scanner loop. -/
inductive MainOutcome where
  | fatal : List Char → MainOutcome
  | completed : PowerData × Nat → MainOutcome

/-- Number of render invocations in an outcome. -/
def renderCount : MainOutcome → Nat
  | MainOutcome.fatal _ => 0
  | MainOutcome.completed r => r.2

/-- main.go lines 173-230: `pipeErr` models the error result of
`cmd.StdoutPipe()` (line 173), `startErr` that of `cmd.Start()` (line
179); either being present makes main print the error and return without
entering the scanner loop.  `trace` is the powermetrics output consumed
otherwise. -/
def mainRun (pipeErr startErr : Option (List Char)) (trace : List (List Char))
    (d : PowerData) : MainOutcome :=
  match pipeErr with
  | some e => MainOutcome.fatal e
  | none =>
    match startErr with
    | some e => MainOutcome.fatal e
    | none => MainOutcome.completed (scanLoop d trace)

theorem colorBarCounts_spec (pct width : Int) (hw : 0 ≤ width) :
    0 ≤ (colorBarCounts pct width).1 ∧ 0 ≤ (colorBarCounts pct width).2 ∧
    (colorBarCounts pct width).1 + (colorBarCounts pct width).2 = width := by
  simp only [colorBarCounts]
  set p1 := if pct < 0 then 0 else pct with hp1
  set p2 := if p1 > 100 then 100 else p1 with hp2
  have hb : 0 ≤ p2 ∧ p2 ≤ 100 := by
    rw [hp2, hp1]
    by_cases hc1 : pct < 0
    · simp only [if_pos hc1]
      by_cases hc2 : (0 : Int) > 100
      · omega
      · simp only [if_neg hc2]
        omega
    · simp only [if_neg hc1]
      by_cases hc2 : pct > 100
      · simp only [if_pos hc2]
        omega
      · simp only [if_neg hc2]
        omega
  have hmul : 0 ≤ p2 * width := mul_nonneg hb.1 hw
  have hts : goDiv (p2 * width) 100 = (p2 * width) / 100 :=
    Int.tdiv_eq_ediv hmul (by norm_num)
  have hf0 : 0 ≤ (p2 * width) / 100 := Int.ediv_nonneg hmul (by norm_num)
  have hfw : (p2 * width) / 100 ≤ width := by
    have h1 : p2 * width ≤ 100 * width := mul_le_mul_of_nonneg_right hb.2 hw
    have h2 : (p2 * width) / 100 ≤ (100 * width) / 100 :=
      Int.ediv_le_ediv (by norm_num) h1
    rwa [Int.mul_ediv_cancel_left _ (by norm_num)] at h2
  rw [hts]
  have hnn : ¬ width - (p2 * width) / 100 < 0 := by omega
  rw [if_neg hnn]
  exact ⟨hf0, by omega, by omega⟩

theorem splitBarCounts_spec (sysPct batPct width : Int)
    (h0 : 0 ≤ sysPct) (h1 : sysPct ≤ 100) (hw : 0 ≤ width) :
    0 ≤ (splitBarCounts sysPct batPct width).1 ∧
    0 ≤ (splitBarCounts sysPct batPct width).2 ∧
    (splitBarCounts sysPct batPct width).1 + (splitBarCounts sysPct batPct width).2 = width ∧
    (splitBarCounts sysPct batPct width).2 = width - (splitBarCounts sysPct batPct width).1 := by
  simp only [splitBarCounts]
  have hns : ¬ sysPct < 0 := by omega
  rw [if_neg hns]
  have hmul : 0 ≤ sysPct * width := mul_nonneg h0 hw
  have hts : goDiv (sysPct * width) 100 = (sysPct * width) / 100 :=
    Int.tdiv_eq_ediv hmul (by norm_num)
  have hf0 : 0 ≤ (sysPct * width) / 100 := Int.ediv_nonneg hmul (by norm_num)
  have hfw : (sysPct * width) / 100 ≤ width := by
    have ha : sysPct * width ≤ 100 * width := mul_le_mul_of_nonneg_right h1 hw
    have hb2 : (sysPct * width) / 100 ≤ (100 * width) / 100 :=
      Int.ediv_le_ediv (by norm_num) ha
    rwa [Int.mul_ediv_cancel_left _ (by norm_num)] at hb2
  rw [hts]
  have hs2 : ¬ (sysPct * width) / 100 < 0 := by omega
  have hb2 : ¬ width - (sysPct * width) / 100 < 0 := by omega
  rw [if_neg hs2, if_neg hb2]
  refine ⟨by omega, by omega, by omega, by omega⟩

theorem clampIfEq (pct : Int) :
    (if (if pct < 0 then 0 else pct) > 100 then 100 else if pct < 0 then 0 else pct)
      = (if (if min 100 (max 0 pct) < 0 then 0 else min 100 (max 0 pct)) > 100 then 100
         else if min 100 (max 0 pct) < 0 then 0 else min 100 (max 0 pct)) := by
  split_ifs <;> omega

theorem colorBarCounts_clamp (pct width : Int) :
    colorBarCounts pct width = colorBarCounts (min 100 (max 0 pct)) width := by
  simp only [colorBarCounts]
  rw [clampIfEq pct]

theorem updCap_none (store : List Char → PowerData → PowerData) (d : PowerData) :
    updCap none store d = d := rfl

theorem updCap_some (cap : List Char) (store : List Char → PowerData → PowerData)
    (d : PowerData) : updCap (some cap) store d = store cap d := rfl

theorem updIf_false (v : Int) (store : Int → PowerData → PowerData) (d : PowerData) :
    updIf (v, false) store d = d := rfl


theorem applyIoreg_ChargerWatts (d : PowerData) (s : List Char) :
    (applyIoreg d s).ChargerWatts = d.ChargerWatts ∨
      (0 ≤ (applyIoreg d s).ChargerWatts ∧ (applyIoreg d s).ChargerWatts ≤ 500) := by
  simp only [applyIoreg]
  rw [updCap_proj (fun x => x.ChargerWatts) (findExternal s) storeExternal _ (fun c d2 => rfl),
      updCap_proj (fun x => x.ChargerWatts) (findCharging s) storeCharging _ (fun c d2 => rfl),
      updIf_proj (fun x => x.ChargerWatts) (extractInt findTemp s 0 10000) storeTemp _ (fun v d2 => rfl),
      updIf_proj (fun x => x.ChargerWatts) (extractInt findBatteryA s (-15000) 15000) storeBatteryA _ (fun v d2 => rfl),
      updIf_proj (fun x => x.ChargerWatts) (extractInt findBatteryV s 5000 25000) storeBatteryV _ (fun v d2 => rfl),
      updIf_proj (fun x => x.ChargerWatts) (extractInt findAdapterA s 0 10000) storeAdapterA _ (fun v d2 => rfl),
      updIf_proj (fun x => x.ChargerWatts) (extractInt findAdapterV s 0 50000) storeAdapterV _ (fun v d2 => rfl)]
  rcases updIf_proj_cases (fun x => x.ChargerWatts) (extractInt findWatts s 0 500)
      storeWatts _ (fun v d2 => rfl) with h | h
  · left
    exact h
  · right
    exact extractInt_true_range h

theorem applyIoreg_ChargerVoltage (d : PowerData) (s : List Char) :
    (applyIoreg d s).ChargerVoltage = d.ChargerVoltage ∨
      (0 ≤ (applyIoreg d s).ChargerVoltage ∧ (applyIoreg d s).ChargerVoltage ≤ 50000) := by
  simp only [applyIoreg]
  rw [updCap_proj (fun x => x.ChargerVoltage) (findExternal s) storeExternal _ (fun c d2 => rfl),
      updCap_proj (fun x => x.ChargerVoltage) (findCharging s) storeCharging _ (fun c d2 => rfl),
      updIf_proj (fun x => x.ChargerVoltage) (extractInt findTemp s 0 10000) storeTemp _ (fun v d2 => rfl),
      updIf_proj (fun x => x.ChargerVoltage) (extractInt findBatteryA s (-15000) 15000) storeBatteryA _ (fun v d2 => rfl),
      updIf_proj (fun x => x.ChargerVoltage) (extractInt findBatteryV s 5000 25000) storeBatteryV _ (fun v d2 => rfl),
      updIf_proj (fun x => x.ChargerVoltage) (extractInt findAdapterA s 0 10000) storeAdapterA _ (fun v d2 => rfl)]
  rcases updIf_proj_cases (fun x => x.ChargerVoltage) (extractInt findAdapterV s 0 50000)
      storeAdapterV _ (fun v d2 => rfl) with h | h
  · left
    rw [h]
    rw [updIf_proj (fun x => x.ChargerVoltage) (extractInt findWatts s 0 500) storeWatts _ (fun v d2 => rfl)]
  · right
    exact extractInt_true_range h

theorem applyIoreg_ChargerCurrent (d : PowerData) (s : List Char) :
    (applyIoreg d s).ChargerCurrent = d.ChargerCurrent ∨
      (0 ≤ (applyIoreg d s).ChargerCurrent ∧ (applyIoreg d s).ChargerCurrent ≤ 10000) := by
  simp only [applyIoreg]
  rw [updCap_proj (fun x => x.ChargerCurrent) (findExternal s) storeExternal _ (fun c d2 => rfl),
      updCap_proj (fun x => x.ChargerCurrent) (findCharging s) storeCharging _ (fun c d2 => rfl),
      updIf_proj (fun x => x.ChargerCurrent) (extractInt findTemp s 0 10000) storeTemp _ (fun v d2 => rfl),
      updIf_proj (fun x => x.ChargerCurrent) (extractInt findBatteryA s (-15000) 15000) storeBatteryA _ (fun v d2 => rfl),
      updIf_proj (fun x => x.ChargerCurrent) (extractInt findBatteryV s 5000 25000) storeBatteryV _ (fun v d2 => rfl)]
  rcases updIf_proj_cases (fun x => x.ChargerCurrent) (extractInt findAdapterA s 0 10000)
      storeAdapterA _ (fun v d2 => rfl) with h | h
  · left
    rw [h]
    rw [updIf_proj (fun x => x.ChargerCurrent) (extractInt findAdapterV s 0 50000) storeAdapterV _ (fun v d2 => rfl),
        updIf_proj (fun x => x.ChargerCurrent) (extractInt findWatts s 0 500) storeWatts _ (fun v d2 => rfl)]
  · right
    exact extractInt_true_range h

theorem applyIoreg_BatteryVoltage (d : PowerData) (s : List Char) :
    (applyIoreg d s).BatteryVoltage = d.BatteryVoltage ∨
      (5000 ≤ (applyIoreg d s).BatteryVoltage ∧ (applyIoreg d s).BatteryVoltage ≤ 25000) := by
  simp only [applyIoreg]
  rw [updCap_proj (fun x => x.BatteryVoltage) (findExternal s) storeExternal _ (fun c d2 => rfl),
      updCap_proj (fun x => x.BatteryVoltage) (findCharging s) storeCharging _ (fun c d2 => rfl),
      updIf_proj (fun x => x.BatteryVoltage) (extractInt findTemp s 0 10000) storeTemp _ (fun v d2 => rfl),
      updIf_proj (fun x => x.BatteryVoltage) (extractInt findBatteryA s (-15000) 15000) storeBatteryA _ (fun v d2 => rfl)]
  rcases updIf_proj_cases (fun x => x.BatteryVoltage) (extractInt findBatteryV s 5000 25000)
      storeBatteryV _ (fun v d2 => rfl) with h | h
  · left
    rw [h]
    rw [updIf_proj (fun x => x.BatteryVoltage) (extractInt findAdapterA s 0 10000) storeAdapterA _ (fun v d2 => rfl),
        updIf_proj (fun x => x.BatteryVoltage) (extractInt findAdapterV s 0 50000) storeAdapterV _ (fun v d2 => rfl),
        updIf_proj (fun x => x.BatteryVoltage) (extractInt findWatts s 0 500) storeWatts _ (fun v d2 => rfl)]
  · right
    exact extractInt_true_range h

theorem applyIoreg_BatteryAmps (d : PowerData) (s : List Char) :
    (applyIoreg d s).BatteryAmps = d.BatteryAmps ∨
      ((-15000) ≤ (applyIoreg d s).BatteryAmps ∧ (applyIoreg d s).BatteryAmps ≤ 15000) := by
  simp only [applyIoreg]
  rw [updCap_proj (fun x => x.BatteryAmps) (findExternal s) storeExternal _ (fun c d2 => rfl),
      updCap_proj (fun x => x.BatteryAmps) (findCharging s) storeCharging _ (fun c d2 => rfl),
      updIf_proj (fun x => x.BatteryAmps) (extractInt findTemp s 0 10000) storeTemp _ (fun v d2 => rfl)]
  rcases updIf_proj_cases (fun x => x.BatteryAmps) (extractInt findBatteryA s (-15000) 15000)
      storeBatteryA _ (fun v d2 => rfl) with h | h
  · left
    rw [h]
    rw [updIf_proj (fun x => x.BatteryAmps) (extractInt findBatteryV s 5000 25000) storeBatteryV _ (fun v d2 => rfl),
        updIf_proj (fun x => x.BatteryAmps) (extractInt findAdapterA s 0 10000) storeAdapterA _ (fun v d2 => rfl),
        updIf_proj (fun x => x.BatteryAmps) (extractInt findAdapterV s 0 50000) storeAdapterV _ (fun v d2 => rfl),
        updIf_proj (fun x => x.BatteryAmps) (extractInt findWatts s 0 500) storeWatts _ (fun v d2 => rfl)]
  · right
    exact extractInt_true_range h

theorem applyIoreg_Temperature (d : PowerData) (s : List Char) :
    (applyIoreg d s).Temperature = d.Temperature ∨
      (0 ≤ (applyIoreg d s).Temperature ∧ (applyIoreg d s).Temperature ≤ 10000) := by
  simp only [applyIoreg]
  rw [updCap_proj (fun x => x.Temperature) (findExternal s) storeExternal _ (fun c d2 => rfl),
      updCap_proj (fun x => x.Temperature) (findCharging s) storeCharging _ (fun c d2 => rfl)]
  rcases updIf_proj_cases (fun x => x.Temperature) (extractInt findTemp s 0 10000)
      storeTemp _ (fun v d2 => rfl) with h | h
  · left
    rw [h]
    rw [updIf_proj (fun x => x.Temperature) (extractInt findBatteryA s (-15000) 15000) storeBatteryA _ (fun v d2 => rfl),
        updIf_proj (fun x => x.Temperature) (extractInt findBatteryV s 5000 25000) storeBatteryV _ (fun v d2 => rfl),
        updIf_proj (fun x => x.Temperature) (extractInt findAdapterA s 0 10000) storeAdapterA _ (fun v d2 => rfl),
        updIf_proj (fun x => x.Temperature) (extractInt findAdapterV s 0 50000) storeAdapterV _ (fun v d2 => rfl),
        updIf_proj (fun x => x.Temperature) (extractInt findWatts s 0 500) storeWatts _ (fun v d2 => rfl)]
  · right
    exact extractInt_true_range h

theorem processLine_BatteryPct (d : PowerData) (t : List Char) :
    (processLine d t).BatteryPct = d.BatteryPct ∨
      ∃ cap, findBatteryPct t = some cap ∧ (processLine d t).BatteryPct = atoiGo cap := by
  simp only [processLine]
  cases hf : findBatteryPct t with
  | none =>
    rw [updCap_none]
    left
    rw [updCap_proj (fun x => x.BatteryPct) (findPackagePower t) storePackage _ (fun c d2 => rfl),
        updCap_proj (fun x => x.BatteryPct) (findANEPower t) storeANE _ (fun c d2 => rfl),
        updCap_proj (fun x => x.BatteryPct) (findGPUPower t) storeGPU _ (fun c d2 => rfl),
        updCap_proj (fun x => x.BatteryPct) (findCPUPower t) storeCPU _ (fun c d2 => rfl)]
  | some cap =>
    right
    exact ⟨cap, rfl, rfl⟩

theorem parseFloatCap_1500 : parseFloatCap "1500.0".data = some 1500 := by
  have ht : ("1500.0".data : List Char).takeWhile Char.isDigit = "1500".data := by decide
  have hd : ("1500.0".data : List Char).dropWhile Char.isDigit = '.' :: "0".data := by decide
  have h3 : digitsVal "1500".data = 1500 := by decide
  have h4 : digitsVal "0".data = 0 := by decide
  have h5 : ("0".data : List Char).all Char.isDigit = true := by decide
  have h6 : ("1500".data : List Char).isEmpty = false := by decide
  simp only [parseFloatCap, ht, hd, h3, h4, h5, h6]
  norm_num

theorem goParseFloat_1500 : goParseFloat "1500.0".data = 1500 := by
  rw [goParseFloat, parseFloatCap_1500]
  rfl

/-- The concrete slow-producer dump of C2's scenario, containing
`"Amperage" = -999999`. -/
def ampDump : List Char := "\"Amperage\" = -999999".data

/-- C1 (counterexample): the claimed invariant — a field is updated only
when the value lies in its declared plausibility range, and an
out-of-range match leaves the previous value intact — fails for the Fast
Producer's batteryPercent: processing the line `percent_charge: 999`
overwrites a previous value of 87 with 999, which is outside 0-100.
The Fast Producer's extraction (main.go lines 205-224) has no range
check at all. -/
theorem fastProducer_range_filter_cex :
    (processLine { powerDataInit with BatteryPct := 87 }
        "percent_charge: 999".data).BatteryPct = 999 ∧
      ¬ ((0 : Int) ≤ 999 ∧ (999 : Int) ≤ 100) := by
  constructor
  · decide
  · decide

/-- C1 (amended): the update-iff-in-range invariant holds for the Slow
Producer's six extractInt-guarded integer fields: after any poll each
such field either kept its previous value or holds a value inside its
declared range, so a value outside the range is never written there.
The Fast Producer's fields carry no plausibility filter: whenever the
`percent_charge` pattern matches, batteryPercent is overwritten with the
parsed value, whatever it is (and the silicon-power fields likewise take
whatever ParseFloat returns, 0 on a parse error). -/
theorem snapshot_range_filter (d : PowerData) (s t : List Char) :
    ((applyIoreg d s).ChargerWatts = d.ChargerWatts ∨
      (0 ≤ (applyIoreg d s).ChargerWatts ∧ (applyIoreg d s).ChargerWatts ≤ 500)) ∧
    ((applyIoreg d s).ChargerVoltage = d.ChargerVoltage ∨
      (0 ≤ (applyIoreg d s).ChargerVoltage ∧ (applyIoreg d s).ChargerVoltage ≤ 50000)) ∧
    ((applyIoreg d s).ChargerCurrent = d.ChargerCurrent ∨
      (0 ≤ (applyIoreg d s).ChargerCurrent ∧ (applyIoreg d s).ChargerCurrent ≤ 10000)) ∧
    ((applyIoreg d s).BatteryVoltage = d.BatteryVoltage ∨
      (5000 ≤ (applyIoreg d s).BatteryVoltage ∧ (applyIoreg d s).BatteryVoltage ≤ 25000)) ∧
    ((applyIoreg d s).BatteryAmps = d.BatteryAmps ∨
      ((-15000) ≤ (applyIoreg d s).BatteryAmps ∧ (applyIoreg d s).BatteryAmps ≤ 15000)) ∧
    ((applyIoreg d s).Temperature = d.Temperature ∨
      (0 ≤ (applyIoreg d s).Temperature ∧ (applyIoreg d s).Temperature ≤ 10000)) ∧
    ((processLine d t).BatteryPct = d.BatteryPct ∨
      ∃ cap, findBatteryPct t = some cap ∧ (processLine d t).BatteryPct = atoiGo cap) :=
  ⟨applyIoreg_ChargerWatts d s, applyIoreg_ChargerVoltage d s,
   applyIoreg_ChargerCurrent d s, applyIoreg_BatteryVoltage d s,
   applyIoreg_BatteryAmps d s, applyIoreg_Temperature d s,
   processLine_BatteryPct d t⟩

/-- C2: the bounded extractor returns `(v, true)` exactly when the
pattern matches, the capture parses as a (64-bit) integer, and the value
lies in the inclusive range; in every other case it returns `(0, false)`
— and concretely, a dump containing `"Amperage" = -999999` (outside
[-15000, 15000]) leaves batteryAmps unchanged. -/
theorem extractInt_contract :
    (∀ (find : List Char → Option (List Char)) (s : List Char) (lo hi v : Int),
      extractInt find s lo hi = (v, true) ↔
        ∃ cap, find s = some cap ∧ atoi cap = some v ∧ lo ≤ v ∧ v ≤ hi) ∧
    (∀ (find : List Char → Option (List Char)) (s : List Char) (lo hi : Int),
      (∃ v, extractInt find s lo hi = (v, true)) ∨
        extractInt find s lo hi = (0, false)) ∧
    (∀ d : PowerData, (applyIoreg d ampDump).BatteryAmps = d.BatteryAmps) := by
  refine ⟨extractInt_eq_some_true_iff, extractInt_cases, ?_⟩
  intro d
  simp only [applyIoreg]
  rw [updCap_proj (fun x => x.BatteryAmps) (findExternal ampDump) storeExternal _
        (fun c d2 => rfl),
      updCap_proj (fun x => x.BatteryAmps) (findCharging ampDump) storeCharging _
        (fun c d2 => rfl),
      updIf_proj (fun x => x.BatteryAmps) (extractInt findTemp ampDump 0 10000) storeTemp _
        (fun v d2 => rfl)]
  have hamp : extractInt findBatteryA ampDump (-15000) 15000 = (0, false) := by decide
  rw [hamp, updIf_false]
  rw [updIf_proj (fun x => x.BatteryAmps) (extractInt findBatteryV ampDump 5000 25000)
        storeBatteryV _ (fun v d2 => rfl),
      updIf_proj (fun x => x.BatteryAmps) (extractInt findAdapterA ampDump 0 10000)
        storeAdapterA _ (fun v d2 => rfl),
      updIf_proj (fun x => x.BatteryAmps) (extractInt findAdapterV ampDump 0 50000)
        storeAdapterV _ (fun v d2 => rfl),
      updIf_proj (fun x => x.BatteryAmps) (extractInt findWatts ampDump 0 500)
        storeWatts _ (fun v d2 => rfl)]

/-- C2 (witness): the contract applied at a concrete dump: the `Watts`
pattern on `"Watts"=65` extracts 65 within [0, 500]. -/
theorem extractInt_contract_witness :
    extractInt findWatts "\"Watts\"=65".data 0 500 = (65, true) :=
  (extractInt_contract.1 findWatts "\"Watts\"=65".data 0 500 65).mpr
    ⟨"65".data, by decide, by decide, by decide, by decide⟩

/-- C3 (counterexample): for sysPct = 200, batPct = 0, width = 40 the
bar's segments hold 80 + 0 = 80 visible cells, not 40: the claimed
"sum to exactly width for all integer inputs" fails, because batBars =
width - sysBars is clamped at zero while sysBars may exceed width. -/
theorem splitBar_sum_cex : visibleLen (splitBar 200 0 40) ≠ 40 := by
  rw [visibleLen_splitBar]
  decide

/-- C3 (amended): whenever 0 ≤ sysPct ≤ 100 and width ≥ 0 — render only
ever calls splitBar with systemPct = 100 - batteryPct for a clamped
batteryPct ∈ [0,100] — the two segments sum to exactly `width` visible
cells, and the battery segment is the remainder width - sysBars. -/
theorem splitBar_sum (sysPct batPct width : Int)
    (h0 : 0 ≤ sysPct) (h1 : sysPct ≤ 100) (hw : 0 ≤ width) :
    visibleLen (splitBar sysPct batPct width) = width.toNat ∧
    (splitBarCounts sysPct batPct width).2
      = width - (splitBarCounts sysPct batPct width).1 := by
  obtain ⟨ha, hb, hc, hd⟩ := splitBarCounts_spec sysPct batPct width h0 h1 hw
  refine ⟨?_, hd⟩
  rw [visibleLen_splitBar]
  omega

/-- C3 (amendment witness): at sysPct = 30, batPct = 70, width = 40 the
segments sum to 40. -/
theorem splitBar_sum_witness : visibleLen (splitBar 30 70 40) = 40 := by
  have h := splitBar_sum 30 70 40 (by decide) (by decide) (by decide)
  simpa using h.1

/-- C4 (counterexample): for content of visible length 53 — longer than
the interior width 52 — line produces a row of visible length 57, not
the claimed fixed interior width (52 interior + 4 border cells = 56):
padding is clamped at zero but the content is not truncated. -/
theorem line_width_cex :
    visibleLen (line (List.replicate 53 'a')) ≠ 52 + 4 := by
  rw [visibleLen_line, visibleLen_of_not_containsSGR (by decide)]
  simp

/-- C4 (amended): for content whose visible length is at most the
interior width 52, the row's visible length is exactly 52 + 4 (interior
plus the `║ ` and ` ║` borders); for longer content the row grows with
the content — visible length content + 4 — since the clamp-to-zero
padding never truncates. -/
theorem line_visible_width (content : List Char) :
    (visibleLen content ≤ 52 → visibleLen (line content) = 52 + 4) ∧
    (52 < visibleLen content → visibleLen (line content) = visibleLen content + 4) := by
  rw [visibleLen_line]
  constructor <;> intro h <;> omega

/-- C4 (amendment witness): a 3-character content pads to the fixed
interior width. -/
theorem line_visible_width_witness : visibleLen (line "abc".data) = 52 + 4 :=
  (line_visible_width "abc".data).1
    (by rw [visibleLen_of_not_containsSGR (by decide)]; decide)

/-- C5: colorBar first clamps pct to [0,100] — its output coincides with
the output for the clamped percentage — and then renders exactly `width`
filled-plus-empty visible cells, for every integer pct and non-negative
width, with any of the program's color constants. -/
theorem colorBar_cells (pct width : Int) (color : List Char)
    (hw : 0 ≤ width) (hc : color ∈ sgrConsts) :
    colorBar pct width color = colorBar (min 100 (max 0 pct)) width color ∧
    visibleLen (colorBar pct width color) = width.toNat := by
  constructor
  · unfold colorBar
    rw [colorBarCounts_clamp]
  · obtain ⟨ha, hb, hc2⟩ := colorBarCounts_spec pct width hw
    rw [visibleLen_colorBar pct width hc]
    omega

/-- C5 (witness): a percentage far above 100 and one below 0 both yield
bars of exactly the requested width. -/
theorem colorBar_cells_witness :
    visibleLen (colorBar 250 20 Magenta) = 20 ∧
    visibleLen (colorBar (-5) 44 Yellow) = 44 := by
  constructor
  · have h := (colorBar_cells 250 20 Magenta (by decide) (by decide)).2
    simpa using h
  · have h := (colorBar_cells (-5) 44 Yellow (by decide) (by decide)).2
    simpa using h

/-- C6: the line `CPU Power: 1500.0 mW` stores cpuPower = 1500 (raw
milliwatts), which the renderer scales to 1500/1000 = 1.5 W; and the
line `percent_charge: 87` stores batteryPercent = 87. -/
theorem fastProducer_scenario (d : PowerData) :
    (processLine d "CPU Power: 1500.0 mW".data).CPUPower = 1500 ∧
    (processLine d "CPU Power: 1500.0 mW".data).CPUPower / 1000 = 3 / 2 ∧
    (processLine d "percent_charge: 87".data).BatteryPct = 87 := by
  have h1 : findCPUPower "CPU Power: 1500.0 mW".data = some "1500.0".data := by decide
  have h2 : findGPUPower "CPU Power: 1500.0 mW".data = none := by decide
  have h3 : findANEPower "CPU Power: 1500.0 mW".data = none := by decide
  have h4 : findPackagePower "CPU Power: 1500.0 mW".data = none := by decide
  have h5 : findBatteryPct "CPU Power: 1500.0 mW".data = none := by decide
  have g1 : findCPUPower "percent_charge: 87".data = none := by decide
  have g2 : findGPUPower "percent_charge: 87".data = none := by decide
  have g3 : findANEPower "percent_charge: 87".data = none := by decide
  have g4 : findPackagePower "percent_charge: 87".data = none := by decide
  have g5 : findBatteryPct "percent_charge: 87".data = some "87".data := by decide
  have hp : goParseFloat ['1', '5', '0', '0', '.', '0'] = 1500 := goParseFloat_1500
  refine ⟨?_, ?_, ?_⟩
  · simp only [processLine, h1, h2, h3, h4, h5, updCap_some, updCap_none, storeCPU,
      goParseFloat_1500, hp]
  · simp only [processLine, h1, h2, h3, h4, h5, updCap_some, updCap_none, storeCPU,
      goParseFloat_1500, hp]
    norm_num
  · simp only [processLine, g1, g2, g3, g4, g5, updCap_some, updCap_none, storeBatteryPct]
    decide

/-- C7: a failed ioreg invocation skips the whole cycle atomically — the
snapshot after the cycle is exactly the snapshot before it, every field
included — and the loop goes on to the next interval exactly as if the
failed cycle had not happened. -/
theorem pollIoreg_skip_cycle (d : PowerData) (rest : List (Option (List Char))) :
    pollIoregCycle d none = d ∧
    pollIoregLoop d (none :: rest) = pollIoregLoop d rest :=
  ⟨rfl, rfl⟩

/-- C8: when either StdoutPipe or Start fails, main ends in the fatal
outcome: the render count of the run is zero — the render loop is never
entered. -/
theorem mainRun_launch_failure (pipeErr startErr : Option (List Char))
    (trace : List (List Char)) (d : PowerData)
    (h : pipeErr ≠ none ∨ startErr ≠ none) :
    renderCount (mainRun pipeErr startErr trace d) = 0 ∧
    ∃ e, mainRun pipeErr startErr trace d = MainOutcome.fatal e := by
  cases pipeErr with
  | some e => exact ⟨rfl, e, rfl⟩
  | none =>
    cases startErr with
    | some e => exact ⟨rfl, e, rfl⟩
    | none =>
      rcases h with h | h
      · exact absurd rfl h
      · exact absurd rfl h

/-- C8 (witness): a concrete pipe failure before a trace that would have
rendered once produces zero renders. -/
theorem mainRun_launch_failure_witness :
    renderCount (mainRun (some "pipe error".data) none
      ["*** Sampled system activity".data] powerDataInit) = 0 :=
  (mainRun_launch_failure (some "pipe error".data) none
      ["*** Sampled system activity".data] powerDataInit
      (Or.inl (by decide))).1

/-- C9: render only reads the snapshot: the state it passes back is
exactly, field for field, the state it received, and its output is the
row list it derives from that state. -/
theorem render_frame_effect (now : List Char) (d : PowerData) :
    (render now d).1 = d ∧ (render now d).2 = renderLines now d :=
  ⟨rfl, rfl⟩

/-- C10: prefixing any of the program's nine ANSI constants, or
suffixing Reset, never changes a string's visible length; and a string
containing no match of `\x1b\[[0-9;]*m` has visible length equal to its
code-point count — only m-terminated SGR sequences are invisible, any
other escape sequence counts. -/
theorem visibleLen_ansi_algebra :
    (∀ color ∈ sgrConsts, ∀ s : List Char, visibleLen (color ++ s) = visibleLen s) ∧
    (∀ s : List Char, visibleLen (s ++ Reset) = visibleLen s) ∧
    (∀ s : List Char, containsSGR s = false → visibleLen s = s.length) := by
  refine ⟨?_, ?_, ?_⟩
  · intro color hc s
    exact visibleLen_sgrConst_append hc s
  · intro s
    exact visibleLen_append_sgrConst (by decide) s
  · intro s h
    exact visibleLen_of_not_containsSGR h

/-- C10 (witness): the algebra applied at concrete strings, including a
non-SGR escape sequence (`ESC[2K`, erase-line) which stays visible. -/
theorem visibleLen_ansi_algebra_witness :
    visibleLen (Red ++ "ab".data) = visibleLen "ab".data ∧
    visibleLen ("ab".data ++ Reset) = visibleLen "ab".data ∧
    visibleLen "\x1b[2K".data = 4 := by
  refine ⟨visibleLen_ansi_algebra.1 Red (by decide) "ab".data,
          visibleLen_ansi_algebra.2.1 "ab".data, ?_⟩
  rw [visibleLen_ansi_algebra.2.2 "\x1b[2K".data (by decide)]
  decide
